import Mathlib

/-!
Verification of the tindeq-overtones repository (src/main.rs, src/audio.rs,
src/progressor.rs): a shallow embedding of its frame codec, frequency mapper,
oscillator, buffer-fill routine and telemetry session, with theorems settling
the specification's claims.

Floating-point values (`f32`) are embedded as exact rationals `ℚ`; every
quantity the claims mention is exactly representable and the arithmetic the
code performs on them is exact at these magnitudes.  Phases are represented
by their quotient by π (a rational), so that the oscillator state stays
computable; the emitted sample is `Real.sin` of the phase.
-/

/-! ## Frame codec — src/progressor.rs lines 26–45, src/main.rs lines 98–117 -/

/-- The `Response` enum.  The weight value produced by `f32::from_le_bytes`
is modelled by its little-endian 32-bit pattern (a `Nat` below `2^32`):
`from_le_bytes` is a bijection between byte quadruples and bit patterns, so
round-trip claims about the float field are exactly claims about the
pattern. -/
inductive Response where
  | WeightMeasurement (valueBits : ℕ) (counter : ℕ)
  | SampleBatteryVoltage (raw : ℕ)
  | LowPowerWarning
deriving DecidableEq, Repr

/-- Outcome of `parse_response`: either a normal return (`ok`) or a Rust
panic (`fault`) raised by an out-of-bounds slice index `i[lo..hi]`. -/
inductive ParseOutcome where
  | ok (r : Option Response)
  | fault
deriving DecidableEq, Repr

/-- Rust slice indexing `i[lo..hi]`: returns the bytes when `hi ≤ i.len()`,
`none` when the index is out of range (in Rust: a panic). -/
def sliceBytes (i : List ℕ) (lo hi : ℕ) : Option (List ℕ) :=
  if hi ≤ i.length then some ((i.drop lo).take (hi - lo)) else none

/-- `u32::from_le_bytes` (and the bit pattern read by `f32::from_le_bytes`)
on a 4-byte little-endian buffer. -/
def leU32 (bs : List ℕ) : ℕ :=
  match bs with
  | [a, b, c, d] => a + 256 * b + 65536 * c + 16777216 * d
  | _ => 0

/-- `parse_response` from src/progressor.rs lines 33–45 (identical in
src/main.rs lines 105–117).  `i.get(0)?` yields `ok none` on an empty
buffer; opcodes 0 and 1 slice `i[2..6]` (and `i[6..10]`), which panics
(`fault`) when the buffer is too short, before `try_into().ok()?` could
ever turn the failure into `None`; opcode 4 carries no payload; any other
opcode yields `ok none`. -/
def parse_response (i : List ℕ) : ParseOutcome :=
  match i.get? 0 with
  | none => ParseOutcome.ok none
  | some 0 =>
    match sliceBytes i 2 6 with
    | none => ParseOutcome.fault
    | some bs => ParseOutcome.ok (some (Response.SampleBatteryVoltage (leU32 bs)))
  | some 1 =>
    match sliceBytes i 2 6 with
    | none => ParseOutcome.fault
    | some bs =>
      match sliceBytes i 6 10 with
      | none => ParseOutcome.fault
      | some cs => ParseOutcome.ok (some (Response.WeightMeasurement (leU32 bs) (leU32 cs)))
  | some 4 => ParseOutcome.ok (some Response.LowPowerWarning)
  | some _ => ParseOutcome.ok none

/-- Little-endian 4-byte encoding of a 32-bit unsigned integer (the inverse
direction of `leU32`, used to state the round-trip claim). -/
def u32LeBytes (v : ℕ) : List ℕ :=
  [v % 256, v / 256 % 256, v / 65536 % 256, v / 16777216 % 256]

/-- Encoder from the claim's words: a weight frame writes opcode 1, a
reserved byte, the value's bytes at offsets 2..6 and the counter's bytes at
offsets 6..10. -/
def encodeWeightFrame (v c : ℕ) : List ℕ :=
  1 :: 0 :: (u32LeBytes v ++ u32LeBytes c)

/-! ## Frequency mapper — src/audio.rs lines 18–21, src/main.rs lines 63–66 -/

/-- Rust `f32::trunc`: rounding toward zero. -/
def ratTrunc (q : ℚ) : ℤ :=
  if 0 ≤ q then ⌊q⌋ else ⌈q⌉

/-- `weight_to_freq` — maps a weight value to a frequency in the overtone
series of A110: `110.0 * (weight.trunc() + 1.0)`. -/
def weight_to_freq (weight : ℚ) : ℚ :=
  110 * ((ratTrunc weight : ℚ) + 1)

/-- Rust `%` on floats: `a - b * (a / b).trunc()` (remainder with the sign
of the dividend). -/
def fmodQ (a b : ℚ) : ℚ :=
  a - b * (ratTrunc (a / b) : ℚ)

/-! ## Audio engine oscillator — src/audio.rs lines 26–43 (`create_stream`)

Phases are stored divided by π: the code's `x % (2.0 * PI)` becomes
`fmodQ x 2` and `clock * freq * 2.0 * PI / sample_rate` becomes
`clock * freq * 2 / sample_rate`, both in units of π.  The emitted sample
is `Real.sin (phase * π)`. -/

/-- The captured state of the `next_value` closure in src/audio.rs lines
28–31: `sample_clock`, `phase`, `phase_offset`, `prev_freq` (phases in
units of π). -/
structure OscState where
  sample_clock : ℚ
  phaseQ : ℚ
  phase_offsetQ : ℚ
  prev_freq : ℚ
deriving DecidableEq, Repr

/-- Initial closure state: all four variables start at zero. -/
def initOsc : OscState := ⟨0, 0, 0, 0⟩

/-- One call of `next_value` (src/audio.rs lines 32–43), state part:
advance and wrap the sample clock, recompute the frequency from the weight
cell, and on a frequency change reset the clock to 1 and capture the
previous phase modulo one cycle as the new phase offset; then recompute
the phase. -/
def audioOscStep (sample_rate w : ℚ) (s : OscState) : OscState :=
  let clock1 := fmodQ (s.sample_clock + 1) sample_rate
  let freq := weight_to_freq w
  if freq ≠ s.prev_freq then
    let off := fmodQ s.phaseQ 2
    { sample_clock := 1, phaseQ := 1 * freq * 2 / sample_rate + off,
      phase_offsetQ := off, prev_freq := freq }
  else
    { sample_clock := clock1, phaseQ := clock1 * freq * 2 / sample_rate + s.phase_offsetQ,
      phase_offsetQ := s.phase_offsetQ, prev_freq := s.prev_freq }

/-- Iterating `next_value` over a trace of weight-cell readings (one
reading per sample, as the closure re-reads the cell on every call). -/
def audioOscRun (sample_rate : ℚ) (ws : List ℚ) (s : OscState) : OscState :=
  ws.foldl (fun st w => audioOscStep sample_rate w st) s

/-- The sample emitted for a state: `phase.sin()`. -/
noncomputable def oscOut (s : OscState) : ℝ :=
  Real.sin (s.phaseQ * Real.pi)

/-- `next_value` as a value-and-state function, the shape consumed by
`write_data`. -/
noncomputable def audioNext (sample_rate w : ℚ) (s : OscState) : ℝ × OscState :=
  (oscOut (audioOscStep sample_rate w s), audioOscStep sample_rate w s)

/-! ## main.rs oscillator — src/main.rs lines 71–78 (no phase-continuity
state: only the sample clock is kept). -/

/-- The captured state of `next_value` in src/main.rs line 73. -/
structure MainOscState where
  sample_clock : ℚ
deriving DecidableEq, Repr

/-- One call of src/main.rs `next_value` (lines 74–78): returns the new
state, the frequency computed from the weight cell on this call, and the
phase (in units of π). -/
def mainOscStep (sample_rate w : ℚ) (s : MainOscState) : MainOscState × ℚ × ℚ :=
  let c := fmodQ (s.sample_clock + 1) sample_rate
  let freq := weight_to_freq w
  (⟨c⟩, freq, c * freq * 2 / sample_rate)

/-- The frequencies computed by successive `next_value` calls over a trace
of weight-cell readings. -/
def mainOscFreqRun (sample_rate : ℚ) (ws : List ℚ) (s : MainOscState) : List ℚ :=
  match ws with
  | [] => []
  | w :: rest =>
    (mainOscStep sample_rate w s).2.1 ::
      mainOscFreqRun sample_rate rest (mainOscStep sample_rate w s).1

/-! ## Buffer fill — src/audio.rs lines 55–61 and src/main.rs lines 90–96
(`write_data`), generic in the sample source as in the Rust code
(`&mut dyn FnMut() -> f32`). -/

/-- `n` successive calls of a value-and-state function, collecting the
returned values. -/
def nextValues {σ α : Type} (next : σ → α × σ) : ℕ → σ → List α × σ
  | 0, s => ([], s)
  | n + 1, s =>
    ((next s).1 :: (nextValues next n (next s).2).1, (nextValues next n (next s).2).2)

/-- `write_data`: `output.chunks_mut(channels)` splits the buffer (of
`total` slots) into frames of `channels` slots (the last one possibly
short), and the inner loop stores `next_sample()` into every slot of each
frame.  `chunks_mut` panics when `channels = 0` (modelled as `none`). -/
def write_data {σ α : Type} (next : σ → α × σ) (channels total : ℕ) (s : σ) :
    Option (List α × σ) :=
  if channels = 0 then none
  else if total = 0 then some ([], s)
  else
    match write_data next channels (total - min channels total)
        (nextValues next (min channels total) s).2 with
    | none => none
    | some q => some ((nextValues next (min channels total) s).1 ++ q.1, q.2)
termination_by total
decreasing_by omega

/-! ## Telemetry session — src/progressor.rs lines 48–116 (`interaction`;
src/main.rs lines 119–186 is the identical `progressor_interaction`).

The wireless environment is a record of the outcome of each fallible
step; the loop consumes the arriving notifications paired with the value
the `RunningFlag` holds when the loop checks it for that notification.
The session's observable effects on the device (connect, subscribe,
control writes, disconnect) are collected as an action trace. -/

/-- An observable device-side action of the session. -/
inductive BtAction where
  | connectA
  | subscribeA
  | writeA (payload : List ℕ)
  | disconnectA
deriving DecidableEq, Repr

/-- How the session ends: normal return, an `Err` propagated by `?`, or a
Rust panic (an `expect` at startup or an out-of-bounds slice inside
`parse_response`). -/
inductive Outcome where
  | done (finalWeight : ℕ)
  | failed
  | crashed
deriving DecidableEq, Repr

/-- Environment for one session run: success of each fallible step, and
the received notifications each paired with the RunningFlag value read
for it.  The weight cell here holds the measurement's 32-bit pattern (see
`Response`). -/
structure SessionEnv where
  adapterOk : Bool
  scanOk : Bool
  deviceFound : Bool
  peripheralOk : Bool
  connectOk : Bool
  discoverOk : Bool
  serviceFound : Bool
  controlFound : Bool
  dataFound : Bool
  subscribeOk : Bool
  writeStartOk : Bool
  received : List (Bool × List ℕ)
  writeEndOk : Bool
  disconnectOk : Bool
deriving DecidableEq, Repr

/-- The receive loop, src/progressor.rs lines 96–104: for each received
notification, first check the RunningFlag and break when it is false;
otherwise decode, store the value of a `WeightMeasurement` into the
weight cell, and ignore every other outcome.  Returns the final cell
value, or `none` when `parse_response` panics. -/
def runLoop : List (Bool × List ℕ) → ℕ → Option ℕ
  | [], w => some w
  | item :: rest, w =>
    if item.1 = false then some w
    else
      match parse_response item.2 with
      | ParseOutcome.fault => none
      | ParseOutcome.ok (some (Response.WeightMeasurement v _)) => runLoop rest v
      | ParseOutcome.ok _ => runLoop rest w

/-- How many notifications the loop receives before it exits (by stream
end, flag check, or panic). -/
def loopConsumed : List (Bool × List ℕ) → ℕ
  | [] => 0
  | item :: rest =>
    if item.1 = false then 1
    else
      match parse_response item.2 with
      | ParseOutcome.fault => 1
      | ParseOutcome.ok _ => 1 + loopConsumed rest

/-- All steps before the receive loop succeed. -/
def preOk (env : SessionEnv) : Bool :=
  env.adapterOk && env.scanOk && env.deviceFound && env.peripheralOk &&
    env.connectOk && env.discoverOk && env.serviceFound && env.controlFound &&
    env.dataFound && env.subscribeOk && env.writeStartOk

/-- The whole session, src/progressor.rs lines 48–116: adapter lookup
(`expect`: panic on failure), scan, discovery of the device, connect,
service discovery, characteristic lookup, subscribe, start-measurement
write (opcode 0x65), the receive loop, end-measurement write (opcode
0x66), disconnect.  Every `?` failure returns the error immediately; the
action trace records each device call in order up to that point. -/
def interaction (env : SessionEnv) (w0 : ℕ) : Outcome × List BtAction :=
  if env.adapterOk = false then (Outcome.crashed, [])
  else if env.scanOk = false then (Outcome.failed, [])
  else if env.deviceFound = false then (Outcome.failed, [])
  else if env.peripheralOk = false then (Outcome.failed, [])
  else if env.connectOk = false then (Outcome.failed, [BtAction.connectA])
  else if env.discoverOk = false then (Outcome.failed, [BtAction.connectA])
  else if env.serviceFound = false then (Outcome.failed, [BtAction.connectA])
  else if env.controlFound = false then (Outcome.failed, [BtAction.connectA])
  else if env.dataFound = false then (Outcome.failed, [BtAction.connectA])
  else if env.subscribeOk = false then
    (Outcome.failed, [BtAction.connectA, BtAction.subscribeA])
  else if env.writeStartOk = false then
    (Outcome.failed, [BtAction.connectA, BtAction.subscribeA, BtAction.writeA [0x65, 0]])
  else
    match runLoop env.received w0 with
    | none =>
      (Outcome.crashed, [BtAction.connectA, BtAction.subscribeA, BtAction.writeA [0x65, 0]])
    | some w' =>
      if env.writeEndOk = false then
        (Outcome.failed,
          [BtAction.connectA, BtAction.subscribeA, BtAction.writeA [0x65, 0],
            BtAction.writeA [0x66, 0]])
      else if env.disconnectOk = false then
        (Outcome.failed,
          [BtAction.connectA, BtAction.subscribeA, BtAction.writeA [0x65, 0],
            BtAction.writeA [0x66, 0], BtAction.disconnectA])
      else
        (Outcome.done w',
          [BtAction.connectA, BtAction.subscribeA, BtAction.writeA [0x65, 0],
            BtAction.writeA [0x66, 0], BtAction.disconnectA])

/-! ## main — src/main.rs lines 30–50 -/

/-- The sequence of actions `main` performs, in source order: build the
output stream, spawn the stop-on-input task, start playback, then run the
telemetry session. -/
inductive MainStep where
  | mkStreamS
  | spawnStopTask
  | playStream
  | runTelemetry
deriving DecidableEq, Repr

/-- src/main.rs lines 36–47. -/
def mainSequence : List MainStep :=
  [MainStep.mkStreamS, MainStep.spawnStopTask, MainStep.playStream, MainStep.runTelemetry]

/-- src/main.rs line 33: `let cur_weight = Arc::new(Mutex::new(0.0));`. -/
def initial_cur_weight : ℚ := 0

/-! ## Helper lemmas -/

theorem ratTrunc_of_nonneg {q : ℚ} (h : 0 ≤ q) : ratTrunc q = ⌊q⌋ := if_pos h

theorem ratTrunc_of_neg {q : ℚ} (h : ¬0 ≤ q) : ratTrunc q = ⌈q⌉ := if_neg h

/-- sin is 1-Lipschitz. -/
theorem abs_sin_sub_sin_le (a b : ℝ) : |Real.sin a - Real.sin b| ≤ |a - b| := by
  rw [Real.sin_sub_sin]
  calc |2 * Real.sin ((a - b) / 2) * Real.cos ((a + b) / 2)|
      = 2 * |Real.sin ((a - b) / 2)| * |Real.cos ((a + b) / 2)| := by
        rw [abs_mul, abs_mul, abs_two]
    _ ≤ 2 * |(a - b) / 2| * 1 := by
        have h1 : |Real.sin ((a - b) / 2)| ≤ |(a - b) / 2| :=
          @Real.abs_sin_le_abs ((a - b) / 2)
        have h2 : |Real.cos ((a + b) / 2)| ≤ 1 := Real.abs_cos_le_one ((a + b) / 2)
        have h3 : (0 : ℝ) ≤ |Real.sin ((a - b) / 2)| := abs_nonneg _
        have h4 : (0 : ℝ) ≤ |(a - b) / 2| := abs_nonneg _
        nlinarith
    _ = |a - b| := by rw [abs_div, abs_two]; ring

/-- Reducing a phase by `fmodQ _ 2` (the code's `% (2.0 * PI)`, in units of
π) does not change its sine. -/
theorem sin_fmodQ_two (a : ℚ) :
    Real.sin ((fmodQ a 2 : ℚ) * Real.pi) = Real.sin ((a : ℚ) * Real.pi) := by
  unfold fmodQ
  push_cast
  have h : ((a : ℝ) - 2 * (ratTrunc (a / 2) : ℝ)) * Real.pi =
      (a : ℝ) * Real.pi + (-(ratTrunc (a / 2)) : ℤ) * (2 * Real.pi) := by
    push_cast
    ring
  rw [h, Real.sin_add_int_mul_two_pi]

/-! ## Claim theorems -/

/-- C1: the claim says `parse_response` returns `None` and never panics on
any buffer shorter than its opcode's required length.  In fact the slice
expressions `i[2..6]` and `i[6..10]` run before `try_into().ok()?` can
intervene, so a recognized opcode with a short buffer panics: `[0]` (opcode
0, length 1), `[0,0,0,0,0]` (opcode 0, length 5) and a 9-byte opcode-1
buffer all fault.  Unrecognized opcodes and the empty buffer do return
`ok none` as claimed. -/
theorem C1_short_buffer_fault_eval :
    parse_response [0] = ParseOutcome.fault ∧
      parse_response [0, 0, 0, 0, 0] = ParseOutcome.fault ∧
      parse_response [1, 0, 0, 0, 0, 0, 0, 0, 0] = ParseOutcome.fault ∧
      parse_response [] = ParseOutcome.ok none ∧
      parse_response [7] = ParseOutcome.ok none ∧
      parse_response [4] = ParseOutcome.ok (some Response.LowPowerWarning) := by
  decide

/-- C4: `weight_to_freq` computes exactly `110 * (trunc(weight) + 1)` with
truncation toward zero (so `-0.5` truncates to `0`), totally and without
failure, and takes the values 110, 110, 220 and 330 at the weights 0,
0.999, 1 and 2.5. -/
theorem C4_weight_to_freq_formula :
    weight_to_freq 0 = 110 ∧ weight_to_freq (999 / 1000) = 110 ∧
      weight_to_freq 1 = 220 ∧ weight_to_freq (5 / 2) = 330 ∧
      ratTrunc (-(1 / 2)) = 0 ∧
      ∀ w : ℚ, weight_to_freq w = 110 * ((ratTrunc w : ℚ) + 1) := by
  refine ⟨?_, ?_, ?_, ?_, ?_, fun w => rfl⟩ <;> norm_num [weight_to_freq, ratTrunc]

/-- C5: on every buffer of length at least 10 whose first byte is opcode 1,
`parse_response` returns a `WeightMeasurement` holding exactly the
little-endian 32-bit value at offsets 2..6 and the little-endian counter
at offsets 6..10, and it is a left inverse of the encoder that writes
those fields at those offsets. -/
theorem C5_weight_frame_roundtrip :
    (∀ bs : List ℕ, 10 ≤ bs.length → bs.get? 0 = some 1 →
      parse_response bs = ParseOutcome.ok (some (Response.WeightMeasurement
        (leU32 ((bs.drop 2).take 4)) (leU32 ((bs.drop 6).take 4))))) ∧
    (∀ v c : ℕ, v < 4294967296 → c < 4294967296 →
      parse_response (encodeWeightFrame v c) =
        ParseOutcome.ok (some (Response.WeightMeasurement v c))) := by
  constructor
  · intro bs hlen h0
    unfold parse_response
    rw [h0]
    have h6 : (6 : ℕ) ≤ bs.length := by omega
    have h10 : (10 : ℕ) ≤ bs.length := hlen
    simp [sliceBytes, h6, h10]
  · intro v c hv hc
    have hlen : (encodeWeightFrame v c).length = 10 := by
      simp [encodeWeightFrame, u32LeBytes]
    unfold parse_response
    simp only [encodeWeightFrame, u32LeBytes, List.get?]
    simp [sliceBytes, leU32]
    constructor <;> omega

/-- C5 witness: the round-trip and field extraction at concrete inputs. -/
theorem C5_witness :
    parse_response (encodeWeightFrame 1078530011 258) =
        ParseOutcome.ok (some (Response.WeightMeasurement 1078530011 258)) ∧
      parse_response [1, 9, 5, 0, 0, 0, 2, 1, 0, 0, 77] =
        ParseOutcome.ok (some (Response.WeightMeasurement
          (leU32 (([1, 9, 5, 0, 0, 0, 2, 1, 0, 0, 77].drop 2).take 4))
          (leU32 (([1, 9, 5, 0, 0, 0, 2, 1, 0, 0, 77].drop 6).take 4)))) :=
  ⟨C5_weight_frame_roundtrip.2 1078530011 258 (by norm_num) (by norm_num),
    C5_weight_frame_roundtrip.1 [1, 9, 5, 0, 0, 0, 2, 1, 0, 0, 77] (by norm_num) rfl⟩

/-- C6: the mapped frequency is monotone non-decreasing in the truncated
integer part of the weight, over non-negative weights. -/
theorem C6_weight_to_freq_monotone (a b : ℚ) (ha : 0 ≤ a) (hb : 0 ≤ b)
    (h : ratTrunc a ≤ ratTrunc b) : weight_to_freq a ≤ weight_to_freq b := by
  unfold weight_to_freq
  have hq : (ratTrunc a : ℚ) ≤ (ratTrunc b : ℚ) := by exact_mod_cast h
  linarith

/-- C6 witness: monotonicity instantiated at weights 1 and 2.5. -/
theorem C6_witness :
    0 ≤ (1 : ℚ) ∧ 0 ≤ (5 / 2 : ℚ) ∧ ratTrunc 1 ≤ ratTrunc (5 / 2) ∧
      weight_to_freq 1 ≤ weight_to_freq (5 / 2) :=
  ⟨by norm_num, by norm_num, by norm_num [ratTrunc],
    C6_weight_to_freq_monotone 1 (5 / 2) (by norm_num) (by norm_num)
      (by norm_num [ratTrunc])⟩

/-- C10: weights in (-2, -1] map to frequency exactly 0, weights at or
below -2 map to a strictly negative frequency, and the oscillator's phase
uses `weight_to_freq` of the cell reading with no clamping: the new phase
is always `sample_clock * weight_to_freq w * 2 / sample_rate` (in units of
π) plus the phase offset, in both branches of the step. -/
theorem C10_negative_weights (w : ℚ) :
    (-2 < w → w ≤ -1 → weight_to_freq w = 0) ∧
      (w ≤ -2 → weight_to_freq w < 0) ∧
      (∀ sample_rate : ℚ, ∀ s : OscState,
        (audioOscStep sample_rate w s).phaseQ =
          (audioOscStep sample_rate w s).sample_clock * weight_to_freq w * 2 / sample_rate +
            (audioOscStep sample_rate w s).phase_offsetQ) := by
  refine ⟨?_, ?_, ?_⟩
  · intro h2 h1
    have hneg : ¬0 ≤ w := by intro h; linarith
    have hceil : ⌈w⌉ = -1 := by
      rw [Int.ceil_eq_iff]
      constructor <;> [push_cast; skip] <;> [linarith; exact_mod_cast h1]
    unfold weight_to_freq
    rw [ratTrunc_of_neg hneg, hceil]
    norm_num
  · intro h2
    have hneg : ¬0 ≤ w := by intro h; linarith
    have hceil : ⌈w⌉ ≤ -2 := Int.ceil_le.mpr (by exact_mod_cast h2)
    have hq : ((⌈w⌉ : ℤ) : ℚ) ≤ -2 := by exact_mod_cast hceil
    unfold weight_to_freq
    rw [ratTrunc_of_neg hneg]
    nlinarith
  · intro sample_rate s
    by_cases h : weight_to_freq w = s.prev_freq <;> simp [audioOscStep, h]

/-- C10 witness: silence at weight -1.5 and a negative frequency at
weight -3. -/
theorem C10_witness :
    (-2 < (-3 / 2 : ℚ) ∧ (-3 / 2 : ℚ) ≤ -1 ∧ weight_to_freq (-3 / 2) = 0) ∧
      ((-3 : ℚ) ≤ -2 ∧ weight_to_freq (-3) < 0) :=
  ⟨⟨by norm_num, by norm_num,
      (C10_negative_weights (-3 / 2)).1 (by norm_num) (by norm_num)⟩,
    ⟨by norm_num, (C10_negative_weights (-3)).2.1 (by norm_num)⟩⟩

/-- C2 counterexample: the claim bounds the transition-sample discontinuity
by the maximum per-sample slope of the LOWER of the two frequencies.  Run
the src/audio.rs oscillator at sample rate 1320 over twelve samples of
weight 0 (frequency 110), then one sample of weight 2 (frequency 330): a
frequency change occurs at the 13th sample, the previous sample is
sin 2π = 0 and the transition sample is sin(π/2) = 1, a jump of 1, while
the lower frequency's maximum per-sample slope is 2π·110/1320 = π/6 < 1. -/
theorem C2_counterexample :
    weight_to_freq 2 ≠ (audioOscRun 1320 (List.replicate 12 0) initOsc).prev_freq ∧
      (audioOscRun 1320 (List.replicate 12 0) initOsc).prev_freq = 110 ∧
      weight_to_freq 2 = 330 ∧
      ¬|oscOut (audioOscStep 1320 2 (audioOscRun 1320 (List.replicate 12 0) initOsc)) -
          oscOut (audioOscRun 1320 (List.replicate 12 0) initOsc)| ≤
        2 * Real.pi * 110 / 1320 := by
  have h12 : audioOscRun 1320 (List.replicate 12 0) initOsc = ⟨12, 2, 0, 110⟩ := by
    norm_num [audioOscRun, audioOscStep, fmodQ, ratTrunc, weight_to_freq, initOsc,
      List.replicate_succ, List.foldl_cons, List.foldl_nil, OscState.mk.injEq]
  have h13 : audioOscStep 1320 2 (⟨12, 2, 0, 110⟩ : OscState) = ⟨1, 1 / 2, 0, 330⟩ := by
    norm_num [audioOscStep, fmodQ, ratTrunc, weight_to_freq, OscState.mk.injEq]
  have hf : weight_to_freq 2 = 330 := by norm_num [weight_to_freq, ratTrunc]
  have hout12 : oscOut ⟨12, 2, 0, 110⟩ = 0 := by
    unfold oscOut
    have h : ((2 : ℚ) : ℝ) * Real.pi = 2 * Real.pi := by push_cast; ring
    rw [h, Real.sin_two_pi]
  have hout13 : oscOut ⟨1, 1 / 2, 0, 330⟩ = 1 := by
    unfold oscOut
    have h : ((1 / 2 : ℚ) : ℝ) * Real.pi = Real.pi / 2 := by push_cast; ring
    rw [h, Real.sin_pi_div_two]
  refine ⟨by rw [h12]; norm_num [hf], by rw [h12], hf, ?_⟩
  rw [h12, h13, hout12, hout13, not_le]
  have hpi : Real.pi < 6 := by
    have h := Real.pi_lt_d2
    linarith
  rw [show (1 : ℝ) - 0 = 1 by ring, abs_one, div_lt_iff₀ (by norm_num)]
  linarith

/-- C2 amended: at every sample where the newly computed frequency differs
from the frequency used on the previous sample, the sample counter is
reset to 1 and the previous phase modulo 2π becomes the phase offset
added to all later phases (the phase is not reset to zero); the
sample-to-sample discontinuity at the transition is bounded by the
maximum per-sample slope of the HIGHER (in magnitude) of the two
frequencies, `2π·max(|f_old|,|f_new|)/sample_rate` — not of the lower, as
the counterexample shows. -/
theorem C2_phase_continuity (sample_rate w : ℚ) (s : OscState)
    (hsr : 0 < sample_rate) (hchange : weight_to_freq w ≠ s.prev_freq) :
    (audioOscStep sample_rate w s).sample_clock = 1 ∧
      (audioOscStep sample_rate w s).phase_offsetQ = fmodQ s.phaseQ 2 ∧
      (audioOscStep sample_rate w s).phaseQ =
        weight_to_freq w * 2 / sample_rate + fmodQ s.phaseQ 2 ∧
      |oscOut (audioOscStep sample_rate w s) - oscOut s| ≤
        2 * Real.pi * max |(s.prev_freq : ℝ)| |((weight_to_freq w : ℚ) : ℝ)| /
          (sample_rate : ℝ) := by
  have hstep : audioOscStep sample_rate w s =
      ⟨1, 1 * weight_to_freq w * 2 / sample_rate + fmodQ s.phaseQ 2,
        fmodQ s.phaseQ 2, weight_to_freq w⟩ := by
    simp [audioOscStep, hchange]
  refine ⟨by rw [hstep], by rw [hstep], by rw [hstep]; ring, ?_⟩
  rw [hstep]
  unfold oscOut
  have hB : Real.sin ((s.phaseQ : ℝ) * Real.pi) =
      Real.sin (((fmodQ s.phaseQ 2 : ℚ) : ℝ) * Real.pi) := (sin_fmodQ_two s.phaseQ).symm
  rw [hB]
  have hle := abs_sin_sub_sin_le
    (((1 * weight_to_freq w * 2 / sample_rate + fmodQ s.phaseQ 2 : ℚ) : ℝ) * Real.pi)
    (((fmodQ s.phaseQ 2 : ℚ) : ℝ) * Real.pi)
  refine hle.trans ?_
  have hsrR : (0 : ℝ) < (sample_rate : ℝ) := by exact_mod_cast hsr
  have hdiff : (((1 * weight_to_freq w * 2 / sample_rate + fmodQ s.phaseQ 2 : ℚ) : ℝ) *
        Real.pi - ((fmodQ s.phaseQ 2 : ℚ) : ℝ) * Real.pi) =
      2 * Real.pi * ((weight_to_freq w : ℚ) : ℝ) / (sample_rate : ℝ) := by
    push_cast
    field_simp
    ring
  rw [hdiff, abs_div, abs_mul, abs_mul, abs_two, abs_of_pos Real.pi_pos, abs_of_pos hsrR]
  gcongr
  exact le_max_right _ _

/-- C2 witness: the amended bound at the transition of the counterexample
run (frequencies 110 → 330, sample rate 1320). -/
theorem C2_witness :
    0 < (1320 : ℚ) ∧ weight_to_freq 2 ≠ (110 : ℚ) ∧
      ((audioOscStep 1320 2 ⟨12, 2, 0, 110⟩).sample_clock = 1 ∧
        (audioOscStep 1320 2 ⟨12, 2, 0, 110⟩).phase_offsetQ = fmodQ 2 2 ∧
        (audioOscStep 1320 2 ⟨12, 2, 0, 110⟩).phaseQ =
          weight_to_freq 2 * 2 / 1320 + fmodQ 2 2 ∧
        |oscOut (audioOscStep 1320 2 ⟨12, 2, 0, 110⟩) - oscOut ⟨12, 2, 0, 110⟩| ≤
          2 * Real.pi * max |((110 : ℚ) : ℝ)| |((weight_to_freq 2 : ℚ) : ℝ)| /
            ((1320 : ℚ) : ℝ)) :=
  ⟨by norm_num, by norm_num [weight_to_freq, ratTrunc],
    C2_phase_continuity 1320 2 ⟨12, 2, 0, 110⟩ (by norm_num)
      (by norm_num [weight_to_freq, ratTrunc])⟩

/-- C9: the weight cell starts at 0.0, playback is started (source line 46)
before the telemetry session runs (line 47), and every frequency the
src/main.rs oscillator computes while the cell still reads its initial
value is exactly `weight_to_freq 0 = 110`: the base tone plays even if no
telemetry ever arrives. -/
theorem C9_initial_tone :
    initial_cur_weight = 0 ∧
      weight_to_freq initial_cur_weight = 110 ∧
      List.indexOf MainStep.playStream mainSequence <
        List.indexOf MainStep.runTelemetry mainSequence ∧
      ∀ sample_rate : ℚ, ∀ n : ℕ, ∀ s : MainOscState,
        ∀ f ∈ mainOscFreqRun sample_rate (List.replicate n initial_cur_weight) s, f = 110 := by
  refine ⟨rfl, by norm_num [weight_to_freq, ratTrunc, initial_cur_weight], by decide, ?_⟩
  intro sample_rate n
  induction n with
  | zero => intro s f hf; simp [mainOscFreqRun] at hf
  | succ k ih =>
    intro s f hf
    rw [List.replicate_succ] at hf
    simp only [mainOscFreqRun] at hf
    rcases List.mem_cons.mp hf with h | h
    · rw [h]
      norm_num [mainOscStep, weight_to_freq, ratTrunc, initial_cur_weight]
    · exact ih _ f h

/-- C9 witness: the first frequency computed over the initial cell value
is 110. -/
theorem C9_witness :
    (110 : ℚ) ∈ mainOscFreqRun 1320 (List.replicate 1 initial_cur_weight) ⟨0⟩ ∧
      (110 : ℚ) = 110 := by
  have hmem : (110 : ℚ) ∈ mainOscFreqRun 1320 (List.replicate 1 initial_cur_weight) ⟨0⟩ := by
    norm_num [mainOscFreqRun, mainOscStep, weight_to_freq, ratTrunc, initial_cur_weight,
      List.replicate_succ]
  exact ⟨hmem, C9_initial_tone.2.2.2 1320 1 ⟨0⟩ 110 hmem⟩

/-- Splitting a run of `nextValues` at any point. -/
theorem nextValues_add {σ α : Type} (next : σ → α × σ) (m n : ℕ) (s : σ) :
    nextValues next (m + n) s =
      ((nextValues next m s).1 ++ (nextValues next n (nextValues next m s).2).1,
        (nextValues next n (nextValues next m s).2).2) := by
  induction m generalizing s with
  | zero => simp [nextValues]
  | succ k ih =>
    rw [Nat.succ_add]
    simp only [nextValues, ih]
    simp

/-- For a non-zero channel count, the chunked fill of `write_data` is the
same as calling the sample source once per slot, in slot order. -/
theorem write_data_fills_sequentially {σ α : Type} (next : σ → α × σ) (channels : ℕ)
    (hc : 0 < channels) :
    ∀ total s, write_data next channels total s = some (nextValues next total s) := by
  intro total
  induction total using Nat.strong_induction_on with
  | _ total ih =>
    intro s
    rw [write_data]
    rw [if_neg (by omega : ¬channels = 0)]
    by_cases ht : total = 0
    · subst ht
      simp [nextValues]
    · rw [if_neg ht]
      have hlt : total - min channels total < total := by omega
      rw [ih _ hlt]
      have hadd := nextValues_add next (min channels total) (total - min channels total) s
      rw [show min channels total + (total - min channels total) = total by omega] at hadd
      rw [hadd]

/-- Every run of the session produces one of six outcome/trace shapes: a
pre-loop failure (trace a prefix of connect/subscribe/start-write with no
teardown), a panic inside the loop, or a completed loop followed by the
end-measurement write and, if that write succeeded, the disconnect. -/
theorem interaction_trace_shape (env : SessionEnv) (w0 : ℕ) :
    (preOk env = false ∧
      ((interaction env w0).2 = [] ∨ (interaction env w0).2 = [BtAction.connectA] ∨
        (interaction env w0).2 = [BtAction.connectA, BtAction.subscribeA] ∨
        (interaction env w0).2 =
          [BtAction.connectA, BtAction.subscribeA, BtAction.writeA [0x65, 0]])) ∨
    (preOk env = true ∧ runLoop env.received w0 = none ∧
      interaction env w0 = (Outcome.crashed,
        [BtAction.connectA, BtAction.subscribeA, BtAction.writeA [0x65, 0]])) ∨
    (preOk env = true ∧ (∃ w', runLoop env.received w0 = some w') ∧
      ((env.writeEndOk = false ∧ interaction env w0 = (Outcome.failed,
          [BtAction.connectA, BtAction.subscribeA, BtAction.writeA [0x65, 0],
            BtAction.writeA [0x66, 0]])) ∨
        (env.writeEndOk = true ∧ env.disconnectOk = false ∧
          interaction env w0 = (Outcome.failed,
            [BtAction.connectA, BtAction.subscribeA, BtAction.writeA [0x65, 0],
              BtAction.writeA [0x66, 0], BtAction.disconnectA])) ∨
        (env.writeEndOk = true ∧ env.disconnectOk = true ∧
          ∃ w', interaction env w0 = (Outcome.done w',
            [BtAction.connectA, BtAction.subscribeA, BtAction.writeA [0x65, 0],
              BtAction.writeA [0x66, 0], BtAction.disconnectA])))) := by
  obtain ⟨a1, a2, a3, a4, a5, a6, a7, a8, a9, a10, a11, rcv, a12, a13⟩ := env
  rcases Bool.eq_false_or_eq_true a1 with h1 | h1
  case inr =>
    subst h1
    exact Or.inl ⟨by simp [preOk], Or.inl (by simp [interaction])⟩
  subst h1
  rcases Bool.eq_false_or_eq_true a2 with h2 | h2
  case inr =>
    subst h2
    exact Or.inl ⟨by simp [preOk], Or.inl (by simp [interaction])⟩
  subst h2
  rcases Bool.eq_false_or_eq_true a3 with h3 | h3
  case inr =>
    subst h3
    exact Or.inl ⟨by simp [preOk], Or.inl (by simp [interaction])⟩
  subst h3
  rcases Bool.eq_false_or_eq_true a4 with h4 | h4
  case inr =>
    subst h4
    exact Or.inl ⟨by simp [preOk], Or.inl (by simp [interaction])⟩
  subst h4
  rcases Bool.eq_false_or_eq_true a5 with h5 | h5
  case inr =>
    subst h5
    exact Or.inl ⟨by simp [preOk], Or.inr (Or.inl (by simp [interaction]))⟩
  subst h5
  rcases Bool.eq_false_or_eq_true a6 with h6 | h6
  case inr =>
    subst h6
    exact Or.inl ⟨by simp [preOk], Or.inr (Or.inl (by simp [interaction]))⟩
  subst h6
  rcases Bool.eq_false_or_eq_true a7 with h7 | h7
  case inr =>
    subst h7
    exact Or.inl ⟨by simp [preOk], Or.inr (Or.inl (by simp [interaction]))⟩
  subst h7
  rcases Bool.eq_false_or_eq_true a8 with h8 | h8
  case inr =>
    subst h8
    exact Or.inl ⟨by simp [preOk], Or.inr (Or.inl (by simp [interaction]))⟩
  subst h8
  rcases Bool.eq_false_or_eq_true a9 with h9 | h9
  case inr =>
    subst h9
    exact Or.inl ⟨by simp [preOk], Or.inr (Or.inl (by simp [interaction]))⟩
  subst h9
  rcases Bool.eq_false_or_eq_true a10 with h10 | h10
  case inr =>
    subst h10
    exact Or.inl ⟨by simp [preOk], Or.inr (Or.inr (Or.inl (by simp [interaction])))⟩
  subst h10
  rcases Bool.eq_false_or_eq_true a11 with h11 | h11
  case inr =>
    subst h11
    exact Or.inl ⟨by simp [preOk], Or.inr (Or.inr (Or.inr (by simp [interaction])))⟩
  subst h11
  cases hloop : runLoop rcv w0 with
  | none =>
    exact Or.inr (Or.inl ⟨by simp [preOk], rfl, by simp [interaction, hloop]⟩)
  | some w' =>
    rcases Bool.eq_false_or_eq_true a12 with h12 | h12
    case inr =>
      subst h12
      exact Or.inr (Or.inr ⟨by simp [preOk], ⟨w', rfl⟩,
        Or.inl ⟨rfl, by simp [interaction, hloop]⟩⟩)
    subst h12
    rcases Bool.eq_false_or_eq_true a13 with h13 | h13
    case inr =>
      subst h13
      exact Or.inr (Or.inr ⟨by simp [preOk], ⟨w', rfl⟩,
        Or.inr (Or.inl ⟨rfl, rfl, by simp [interaction, hloop]⟩)⟩)
    subst h13
    exact Or.inr (Or.inr ⟨by simp [preOk], ⟨w', rfl⟩,
      Or.inr (Or.inr ⟨rfl, rfl, w', by simp [interaction, hloop]⟩)⟩)

/-- C3 counterexample: the claim says each frame holds ONE oscillator
sample replicated to all channel slots.  In fact the inner loop of
`write_data` calls `next_sample()` once per SLOT, so with 2 channels a
single frame holds two consecutive oscillator samples: running the
src/audio.rs oscillator from its initial state at sample rate 1320 with
weight 0, the first frame's two slots are sin(π/6) = 1/2 and
sin(π/3) = √3/2, which differ. -/
theorem C3_counterexample :
    (write_data (audioNext 1320 0) 2 2 initOsc).map Prod.fst =
        some [oscOut ⟨1, 1 / 6, 0, 110⟩, oscOut ⟨2, 1 / 3, 0, 110⟩] ∧
      oscOut (⟨1, 1 / 6, 0, 110⟩ : OscState) = 1 / 2 ∧
      oscOut (⟨2, 1 / 3, 0, 110⟩ : OscState) = Real.sqrt 3 / 2 ∧
      oscOut (⟨1, 1 / 6, 0, 110⟩ : OscState) ≠ oscOut (⟨2, 1 / 3, 0, 110⟩ : OscState) := by
  have hs1 : audioOscStep 1320 0 initOsc = ⟨1, 1 / 6, 0, 110⟩ := by
    norm_num [audioOscStep, fmodQ, ratTrunc, weight_to_freq, initOsc, OscState.mk.injEq]
  have hs2 : audioOscStep 1320 0 (⟨1, 1 / 6, 0, 110⟩ : OscState) = ⟨2, 1 / 3, 0, 110⟩ := by
    norm_num [audioOscStep, fmodQ, ratTrunc, weight_to_freq, OscState.mk.injEq]
  have ho1 : oscOut (⟨1, 1 / 6, 0, 110⟩ : OscState) = 1 / 2 := by
    unfold oscOut
    have h : ((1 / 6 : ℚ) : ℝ) * Real.pi = Real.pi / 6 := by push_cast; ring
    rw [h, Real.sin_pi_div_six]
  have ho2 : oscOut (⟨2, 1 / 3, 0, 110⟩ : OscState) = Real.sqrt 3 / 2 := by
    unfold oscOut
    have h : ((1 / 3 : ℚ) : ℝ) * Real.pi = Real.pi / 3 := by push_cast; ring
    rw [h, Real.sin_pi_div_three]
  have hsq : (1 : ℝ) < Real.sqrt 3 := by
    rw [show (1 : ℝ) = Real.sqrt 1 from Real.sqrt_one.symm]
    exact Real.sqrt_lt_sqrt (by norm_num) (by norm_num)
  refine ⟨?_, ho1, ho2, ?_⟩
  · rw [write_data_fills_sequentially (audioNext 1320 0) 2 (by norm_num) 2 initOsc]
    have hnv : nextValues (audioNext 1320 0) 2 initOsc =
        ([oscOut ⟨1, 1 / 6, 0, 110⟩, oscOut ⟨2, 1 / 3, 0, 110⟩],
          (⟨2, 1 / 3, 0, 110⟩ : OscState)) := by
      simp only [nextValues, audioNext]
      rw [hs1, hs2]
    rw [hnv]
    rfl
  · rw [ho1, ho2]
    intro heq
    nlinarith [Real.sq_sqrt (by norm_num : (0 : ℝ) ≤ 3)]

/-- C3 amended: for every positive channel count, every audio-callback
invocation with a buffer of `total` slots calls the sample source once
per slot, filling the buffer with `total` consecutive oscillator samples
in order — within a frame the channel slots hold successive (generally
different) samples, and the result does not depend on the channel
count. -/
theorem C3_per_slot_fill {σ α : Type} (next : σ → α × σ) (channels total : ℕ) (s : σ)
    (hc : 0 < channels) :
    write_data next channels total s = some (nextValues next total s) ∧
      ∀ channels2 : ℕ, 0 < channels2 →
        write_data next channels total s = write_data next channels2 total s := by
  refine ⟨write_data_fills_sequentially next channels hc total s, fun c2 hc2 => ?_⟩
  rw [write_data_fills_sequentially next channels hc total s,
    write_data_fills_sequentially next c2 hc2 total s]

/-- C3 witness: the per-slot fill for a counting source, 2 channels and a
3-slot buffer. -/
theorem C3_witness :
    0 < 2 ∧
      write_data (fun n : ℕ => (n, n + 1)) 2 3 0 =
        some (nextValues (fun n : ℕ => (n, n + 1)) 3 0) ∧
      nextValues (fun n : ℕ => (n, n + 1)) 3 0 = ([0, 1, 2], 3) :=
  ⟨by norm_num, (C3_per_slot_fill (fun n : ℕ => (n, n + 1)) 2 3 0 (by norm_num)).1, by decide⟩

/-- C7: the receive loop checks the RunningFlag once per received
notification, before decoding it; a false flag exits the loop without
processing that item, so once the flag is cleared (all checks from
position `k` on read false) the loop receives at most `k + 1`
notifications in total; a notification decoding to `WeightMeasurement`
overwrites the weight cell with its value while every other decoded frame
leaves the cell unchanged; and whenever the loop exits without a panic
after a successful setup, the session writes the two-byte end-measurement
command `[0x66, 0x00]` to the control characteristic exactly once
afterward. -/
theorem C7_receive_loop_contract :
    (∀ x : List ℕ, ∀ rest : List (Bool × List ℕ), ∀ w : ℕ,
      runLoop ((false, x) :: rest) w = some w ∧ loopConsumed ((false, x) :: rest) = 1) ∧
    (∀ xs : List (Bool × List ℕ), ∀ k : ℕ, (∀ p ∈ xs.drop k, p.1 = false) →
      loopConsumed xs ≤ k + 1) ∧
    (∀ x : List ℕ, ∀ rest : List (Bool × List ℕ), ∀ w v c : ℕ,
      parse_response x = ParseOutcome.ok (some (Response.WeightMeasurement v c)) →
      runLoop ((true, x) :: rest) w = runLoop rest v) ∧
    (∀ x : List ℕ, ∀ rest : List (Bool × List ℕ), ∀ w : ℕ, ∀ r : Option Response,
      parse_response x = ParseOutcome.ok r →
      (∀ v c : ℕ, r ≠ some (Response.WeightMeasurement v c)) →
      runLoop ((true, x) :: rest) w = runLoop rest w) ∧
    (∀ env : SessionEnv, ∀ w0 w' : ℕ, preOk env = true →
      runLoop env.received w0 = some w' →
      (interaction env w0).2.count (BtAction.writeA [0x66, 0]) = 1) := by
  refine ⟨?_, ?_, ?_, ?_, ?_⟩
  · intro x rest w
    exact ⟨by simp [runLoop], by simp [loopConsumed]⟩
  · intro xs
    induction xs with
    | nil => intro k hk; simp [loopConsumed]
    | cons p rest ih =>
      intro k hk
      match k with
      | 0 =>
        have hp : p.1 = false := hk p (by simp)
        simp [loopConsumed, hp]
      | k + 1 =>
        have hk' : ∀ q ∈ rest.drop k, q.1 = false := by
          intro q hq
          exact hk q (by simpa [List.drop_succ_cons] using hq)
        have hih := ih k hk'
        simp only [loopConsumed]
        by_cases hp : p.1 = false
        · simp [hp]
        · rw [if_neg hp]
          cases hparse : parse_response p.2 with
          | fault =>
            show (1 : ℕ) ≤ k + 1 + 1
            omega
          | ok r =>
            show 1 + loopConsumed rest ≤ k + 1 + 1
            omega
  · intro x rest w v c hx
    simp [runLoop, hx]
  · intro x rest w r hx hne
    rcases r with _ | resp
    · simp [runLoop, hx]
    · rcases resp with ⟨v, c⟩ | raw | _
      · exact absurd rfl (hne v c)
      · simp [runLoop, hx]
      · simp [runLoop, hx]
  · intro env w0 w' hpre hloop
    rcases interaction_trace_shape env w0 with ⟨hf, _⟩ | ⟨_, hn, _⟩ | ⟨_, _, hc⟩
    · rw [hpre] at hf
      exact absurd hf (by simp)
    · rw [hloop] at hn
      exact absurd hn (by simp)
    · rcases hc with ⟨_, hi⟩ | ⟨_, _, hi⟩ | ⟨_, _, w'', hi⟩ <;> rw [hi] <;> rfl

/-- C7 witness: each clause of the receive-loop contract at a concrete
input — a flag-false exit, the at-most-one-more bound, a weight frame
updating the cell, a low-power frame leaving it unchanged, and the single
end-measurement write of a full session run. -/
theorem C7_witness :
    (runLoop [(false, [9])] 5 = some 5 ∧ loopConsumed [(false, [9])] = 1) ∧
      loopConsumed [(true, [4]), (false, [])] ≤ 1 + 1 ∧
      runLoop [(true, [1, 0, 7, 0, 0, 0, 3, 0, 0, 0])] 5 = runLoop [] 7 ∧
      runLoop [(true, [4])] 5 = runLoop [] 5 ∧
      (interaction ⟨true, true, true, true, true, true, true, true, true, true, true,
          [(true, [4]), (false, [])], true, true⟩ 0).2.count (BtAction.writeA [0x66, 0]) = 1 :=
  ⟨C7_receive_loop_contract.1 [9] [] 5,
    C7_receive_loop_contract.2.1 [(true, [4]), (false, [])] 1 (by decide),
    C7_receive_loop_contract.2.2.1 [1, 0, 7, 0, 0, 0, 3, 0, 0, 0] [] 5 7 3 (by decide),
    C7_receive_loop_contract.2.2.2.1 [4] [] 5 (some Response.LowPowerWarning) (by decide)
      (fun v c => by simp),
    C7_receive_loop_contract.2.2.2.2 ⟨true, true, true, true, true, true, true, true, true,
      true, true, [(true, [4]), (false, [])], true, true⟩ 0 0 (by decide) (by decide)⟩

/-- C8 counterexample: the claim says every error exit after connecting
still writes the stop opcode and disconnects.  Fail the subscribe step
(after a successful connect): the session exits with the error, its trace
records the connect and the subscribe attempt, and contains neither a
`[0x66, 0x00]` control write nor a disconnect — no teardown happens. -/
theorem C8_counterexample :
    (interaction ⟨true, true, true, true, true, true, true, true, true, false, true, [],
        true, true⟩ 0).1 = Outcome.failed ∧
      BtAction.connectA ∈ (interaction ⟨true, true, true, true, true, true, true, true, true,
        false, true, [], true, true⟩ 0).2 ∧
      BtAction.writeA [0x66, 0] ∉ (interaction ⟨true, true, true, true, true, true, true, true,
        true, false, true, [], true, true⟩ 0).2 ∧
      BtAction.disconnectA ∉ (interaction ⟨true, true, true, true, true, true, true, true, true,
        false, true, [], true, true⟩ 0).2 := by
  decide

/-- C8 amended: on an error exit the session attempts NO teardown beyond
the point of failure: a disconnect appears in the trace only when the
receive loop completed and the end-measurement write succeeded (so the
error, if any, came from the disconnect call itself), and the
end-measurement write appears only when the whole setup succeeded and the
receive loop completed (so the error came from that write or later).
Errors before or during the loop propagate immediately with no stop write
and no disconnect. -/
theorem C8_no_teardown_on_error (env : SessionEnv) (w0 : ℕ)
    (h : ∀ w', (interaction env w0).1 ≠ Outcome.done w') :
    (BtAction.disconnectA ∈ (interaction env w0).2 →
      env.writeEndOk = true ∧ ∃ w', runLoop env.received w0 = some w') ∧
    (BtAction.writeA [0x66, 0] ∈ (interaction env w0).2 →
      preOk env = true ∧ ∃ w', runLoop env.received w0 = some w') := by
  rcases interaction_trace_shape env w0 with ⟨_, ht⟩ | ⟨_, _, hi⟩ | ⟨hp, hl, hc⟩
  · constructor <;> intro hmem <;>
      rcases ht with ht | ht | ht | ht <;> rw [ht] at hmem <;> simp at hmem
  · rw [hi]
    constructor <;> intro hmem <;> simp at hmem
  · rcases hc with ⟨he, hi⟩ | ⟨he, hd, hi⟩ | ⟨he, hd, w'', hi⟩
    · rw [hi]
      exact ⟨fun hmem => by simp at hmem, fun _ => ⟨hp, hl⟩⟩
    · rw [hi]
      exact ⟨fun _ => ⟨he, hl⟩, fun _ => ⟨hp, hl⟩⟩
    · exact absurd (by rw [hi] : (interaction env w0).1 = Outcome.done w'') (h w'')

/-- C8 witness: a session whose disconnect call fails — an error exit in
which the trace holds the end-measurement write and the disconnect
attempt, consistent with the amended statement. -/
theorem C8_witness :
    (∀ w', (interaction ⟨true, true, true, true, true, true, true, true, true, true, true, [],
        true, false⟩ 0).1 ≠ Outcome.done w') ∧
      ((BtAction.disconnectA ∈ (interaction ⟨true, true, true, true, true, true, true, true,
          true, true, true, [], true, false⟩ 0).2 →
        (⟨true, true, true, true, true, true, true, true, true, true, true, [], true,
          false⟩ : SessionEnv).writeEndOk = true ∧
          ∃ w', runLoop ([] : List (Bool × List ℕ)) 0 = some w') ∧
      (BtAction.writeA [0x66, 0] ∈ (interaction ⟨true, true, true, true, true, true, true, true,
          true, true, true, [], true, false⟩ 0).2 →
        preOk ⟨true, true, true, true, true, true, true, true, true, true, true, [], true,
          false⟩ = true ∧
          ∃ w', runLoop ([] : List (Bool × List ℕ)) 0 = some w')) := by
  have hyp : ∀ w', (interaction ⟨true, true, true, true, true, true, true, true, true, true,
      true, [], true, false⟩ 0).1 ≠ Outcome.done w' := by
    intro w' h'
    rw [show (interaction ⟨true, true, true, true, true, true, true, true, true, true, true,
      [], true, false⟩ 0).1 = Outcome.failed by decide] at h'
    exact Outcome.noConfusion h'
  exact ⟨hyp, C8_no_teardown_on_error
    ⟨true, true, true, true, true, true, true, true, true, true, true, [], true, false⟩ 0 hyp⟩
